import Mathlib

/-!
Verification development for the GPT-2 style decoder stack in
`adept/networks/net2d/gpt2.py`: a shallow embedding of the tensor
computations (`Conv1D`, `LayerNorm`, `Attention`, `MLP`, `Block`,
`GPT2._forward`) together with a shape-level model of the PyTorch
operations (`view`, `permute`, `transpose`, `cat`, `stack`, slice
clamping, broadcasting) used on the attention cache path.

Real-valued tensors are modelled as curried functions
`Fin B → Fin T → Fin F → ℝ`; shapes, where a claim is about shapes or
about shape errors, are modelled as `List ℕ` with the PyTorch semantics
of each operation.
-/

/-! ## Shape-level model (PyTorch semantics) -/

/-- Shape of `x.view(*x.size()[:-1] + (nb_head, x.size(-1) // nb_head))`
for a rank-3 input, as in `Attention.split_heads`. -/
def viewSplitLast : List ℕ → ℕ → List ℕ
  | [b, t, f], h => [b, t, h, f / h]
  | s, _ => s

/-- Shape of `x.permute(0, 2, 3, 1)` (the `k=True` branch of `split_heads`). -/
def permute0231 : List ℕ → List ℕ
  | [a, b, c, d] => [a, c, d, b]
  | s => s

/-- Shape of `x.permute(0, 2, 1, 3)` (the default branch of `split_heads`). -/
def permute0213 : List ℕ → List ℕ
  | [a, b, c, d] => [a, c, b, d]
  | s => s

/-- Shape of `x.transpose(-2, -1)` for a rank-4 tensor. -/
def transposeLast2 : List ℕ → List ℕ
  | [a, b, c, d] => [a, b, d, c]
  | s => s

/-- Shape of `torch.cat((a, b), dim=-1)` for rank-4 tensors: all leading
dimensions must agree, the last dimensions add; otherwise the call raises. -/
def catLastShape : List ℕ → List ℕ → Option (List ℕ)
  | [a, b, c, d], [a2, b2, c2, d2] =>
    if a = a2 ∧ b = b2 ∧ c = c2 then some [a, b, c, d + d2] else none
  | _, _ => none

/-- Shape of `torch.cat((a, b), dim=-2)` for rank-4 tensors. -/
def catPenShape : List ℕ → List ℕ → Option (List ℕ)
  | [a, b, c, d], [a2, b2, c2, d2] =>
    if a = a2 ∧ b = b2 ∧ d = d2 then some [a, b, c + c2, d] else none
  | _, _ => none

/-- Shape of `torch.stack((a, b))`: the two shapes must be identical
(otherwise the call raises), and a new leading dimension of size 2 appears. -/
def stackShape (s1 s2 : List ℕ) : Option (List ℕ) :=
  if s1 = s2 then some (2 :: s1) else none

/-- Length of the Python slice `[start:stop]` of an axis of length `len`
(for `0 ≤ start ≤ stop`): Python slicing clamps out-of-range bounds
silently instead of raising. -/
def sliceLen (len start stop : ℕ) : ℕ := min stop len - min start len

/-- Shape of `self.bias[:, :, ns-nd:ns, :ns]` where the registered buffer
`bias` has shape `(1, 1, S, S)` (`Attention._attn`). -/
def maskSliceShape (S nd ns : ℕ) : List ℕ :=
  [1, 1, sliceLen S (ns - nd) ns, sliceLen S 0 ns]

/-- PyTorch broadcasting of a single dimension pair: the sizes must be
equal or one of them must be 1. -/
def broadcastDim (a b : ℕ) : Option ℕ :=
  if a = b then some a else if a = 1 then some b else if b = 1 then some a else none

/-- PyTorch broadcasting of two equal-rank shapes, dimension by dimension. -/
def broadcastShape : List ℕ → List ℕ → Option (List ℕ)
  | [], [] => some []
  | a :: s, b :: t =>
    (broadcastDim a b).bind fun d => (broadcastShape s t).map fun r => d :: r
  | _, _ => none

/-- Shape of the elementwise product `w * b` in `Attention._attn`, where
`w` has shape `(B, H, nd, ns)` and `b` is the sliced mask buffer. This is
the first operation that can fail when `ns` exceeds the buffer size `S`. -/
def attnMaskMulShape (B H nd ns S : ℕ) : Option (List ℕ) :=
  broadcastShape [B, H, nd, ns] (maskSliceShape S nd ns)

/-- Shape of the `present` tensor returned by `Attention.forward` when a
past cache of prefix length `P` is supplied, composed exactly as in the
source: split heads, transpose the stored past key back, concatenate,
then `torch.stack((key.transpose(-2, -1), value))`. -/
def attnPresentShape (B T F H P : ℕ) : Option (List ℕ) :=
  let keyS := permute0231 (viewSplitLast [B, T, F] H)
  let valS := permute0213 (viewSplitLast [B, T, F] H)
  let pastKeyS := transposeLast2 [B, H, P, F / H]
  let pastValS := [B, H, P, F / H]
  (catLastShape pastKeyS keyS).bind fun keyC =>
    (catPenShape pastValS valS).bind fun valC =>
      stackShape (transposeLast2 keyC) valC

/-! ## Real-valued tensor model -/

/-- A feature tensor of shape `(B, T, F)`, as a curried function. -/
abbrev Tens (B T F : ℕ) := Fin B → Fin T → Fin F → ℝ

/-- Model of `Conv1D.forward`: `torch.addmm(self.bias, x.view(-1, nx),
self.weight)` reshaped back, i.e. `bias + x @ weight` applied over the
flattened leading dimensions. -/
noncomputable def conv1d {B T nx nf : ℕ} (W : Fin nx → Fin nf → ℝ)
    (bias : Fin nf → ℝ) (x : Tens B T nx) : Tens B T nf :=
  fun b t j => bias j + ∑ k, x b t k * W k j

/-- Model of `LayerNorm.forward`, written in the source's order:
`u = x.mean(-1)`, `s = (x - u).pow(2).mean(-1)`,
`x = (x - u) / torch.sqrt(s + eps)`, `return weight * x + bias`. -/
noncomputable def layerNorm {B T n : ℕ} (w bias : Fin n → ℝ) (eps : ℝ)
    (x : Tens B T n) : Tens B T n :=
  fun b t j =>
    let u := (∑ i, x b t i) / n
    let s := (∑ i, (x b t i - u) ^ 2) / n
    w j * ((x b t j - u) / Real.sqrt (s + eps)) + bias j

/-- Default value of the `eps` parameter in `LayerNorm.__init__`. -/
noncomputable def layerNormDefaultEps : ℝ := 1e-12

/-- Default value of the `layer_norm_eps` hyperparameter in `GPT2.args`,
passed by `GPT2.__init__` to every `LayerNorm` it builds. -/
noncomputable def gpt2ArgsLayerNormEps : ℝ := 1e-5

/-- Mean over the last axis (specification-side definition). -/
noncomputable def meanLast {B T n : ℕ} (x : Tens B T n) (b : Fin B) (t : Fin T) : ℝ :=
  (∑ i, x b t i) / n

/-- Biased variance over the last axis (specification-side definition). -/
noncomputable def varLast {B T n : ℕ} (x : Tens B T n) (b : Fin B) (t : Fin T) : ℝ :=
  (∑ i, (x b t i - meanLast x b t) ^ 2) / n

/-- Model of the module-level `gelu` function:
`0.5 * x * (1 + torch.tanh(math.sqrt(2 / math.pi) * (x + 0.044715 * torch.pow(x, 3))))`. -/
noncomputable def gelu (x : ℝ) : ℝ :=
  0.5 * x * (1 + Real.tanh (Real.sqrt (2 / Real.pi) * (x + 0.044715 * x ^ 3)))

/-- Parameters of `MLP` as constructed by `Block.__init__`:
`MLP(4 * feat_len, feat_len)`, so `c_fc : F → 4F` and `c_proj : 4F → F`. -/
structure MLPParams (F : ℕ) where
  cfcW : Fin F → Fin (4 * F) → ℝ
  cfcB : Fin (4 * F) → ℝ
  cprojW : Fin (4 * F) → Fin F → ℝ
  cprojB : Fin F → ℝ

/-- Model of `MLP.forward`: `h = self.act(self.c_fc(x)); h2 = self.c_proj(h)`. -/
noncomputable def mlpFwd {B T F : ℕ} (p : MLPParams F) (x : Tens B T F) : Tens B T F :=
  conv1d p.cprojW p.cprojB (fun b t j => gelu (conv1d p.cfcW p.cfcB x b t j))

/-! ### Attention -/

/-- Index of feature `d` of head `h` inside the merged feature axis:
`split_heads` views the last axis of length `H * hd` as `(H, hd)`. -/
def hIdx {H hd : ℕ} (h : Fin H) (d : Fin hd) : Fin (H * hd) :=
  ⟨h.1 * hd + d.1, by
    have h1 := h.2
    have h2 := d.2
    calc h.1 * hd + d.1 < h.1 * hd + hd := by omega
      _ = (h.1 + 1) * hd := by ring
      _ ≤ H * hd := Nat.mul_le_mul_right hd (by omega)⟩

/-- Head component of a merged feature index (`merge_heads` view). -/
def headOf {H hd : ℕ} (f : Fin (H * hd)) : Fin H :=
  ⟨f.1 / hd, by
    have hf := f.2
    rcases Nat.eq_zero_or_pos hd with h | h
    · have hz : H * hd = 0 := by rw [h]; exact Nat.mul_zero H
      omega
    · have hmc : f.1 < hd * H := by rw [Nat.mul_comm hd H]; exact hf
      exact Nat.div_lt_of_lt_mul hmc⟩

/-- Within-head component of a merged feature index (`merge_heads` view). -/
def dimOf {H hd : ℕ} (f : Fin (H * hd)) : Fin hd :=
  ⟨f.1 % hd, by
    have hf := f.2
    rcases Nat.eq_zero_or_pos hd with h | h
    · have hz : H * hd = 0 := by rw [h]; exact Nat.mul_zero H
      omega
    · exact Nat.mod_lt _ h⟩

/-- Query slice of the `c_attn` output: `x.split(self.split_size, dim=2)`
takes features `0 ≤ f < F` for the query. -/
def qIdx {F : ℕ} (f : Fin F) : Fin (3 * F) :=
  ⟨f.1, by have := f.2; omega⟩

/-- Key slice of the `c_attn` output: features `F ≤ f < 2F`. -/
def kIdx {F : ℕ} (f : Fin F) : Fin (3 * F) :=
  ⟨F + f.1, by have := f.2; omega⟩

/-- Value slice of the `c_attn` output: features `2F ≤ f < 3F`. -/
def vIdx {F : ℕ} (f : Fin F) : Fin (3 * F) :=
  ⟨2 * F + f.1, by have := f.2; omega⟩

/-- Concatenation of two indexed families along a sequence axis, the model
of `torch.cat` on the key/value cache path. -/
def catFin {α : Type} {P T : ℕ} (a : Fin P → α) (b : Fin T → α) : Fin (P + T) → α :=
  fun j => if h : (j : ℕ) < P then a ⟨j, h⟩ else b ⟨(j : ℕ) - P, by have := j.2; omega⟩

/-- The registered buffer `torch.tril(torch.ones(seq_len, seq_len))`
(leading two singleton dimensions of the `view(1, 1, S, S)` dropped). -/
noncomputable def biasBuf (S : ℕ) : Fin S → Fin S → ℝ :=
  fun i j => if (j : ℕ) ≤ (i : ℕ) then 1 else 0

/-- Entry `(i, j)` of the sliced mask `b = self.bias[:, :, ns-nd:ns, :ns]`
used by `Attention._attn`. For `nd ≤ ns ≤ S` this equals
`biasBuf S (ns - nd + i) j` (proved below); the out-of-range regime, where
Python slicing clamps, is modelled separately by `attnMaskMulShape`. -/
noncomputable def maskVal (nd ns : ℕ) (i : Fin nd) (j : Fin ns) : ℝ :=
  if (j : ℕ) ≤ ns - nd + (i : ℕ) then 1 else 0

/-- Raw attention scores `w = torch.matmul(q, k)` per batch and head. -/
noncomputable def attnScores {B H nd ns hd : ℕ}
    (q : Fin B → Fin H → Fin nd → Fin hd → ℝ)
    (k : Fin B → Fin H → Fin hd → Fin ns → ℝ) :
    Fin B → Fin H → Fin nd → Fin ns → ℝ :=
  fun b h i j => ∑ d, q b h i d * k b h d j

/-- Optional scaling `w = w / math.sqrt(v.size(-1))` controlled by the
`scale` flag; `v.size(-1)` is the per-head feature count. -/
noncomputable def attnScaled {B H nd ns : ℕ} (scale : Bool) (hd : ℕ)
    (w : Fin B → Fin H → Fin nd → Fin ns → ℝ) :
    Fin B → Fin H → Fin nd → Fin ns → ℝ :=
  if scale then (fun b h i j => w b h i j / Real.sqrt hd) else w

/-- Masking step `w = w * b - 1e10 * (1 - b)` of `Attention._attn`. -/
noncomputable def maskedScores {B H nd ns : ℕ}
    (w : Fin B → Fin H → Fin nd → Fin ns → ℝ) :
    Fin B → Fin H → Fin nd → Fin ns → ℝ :=
  fun b h i j => w b h i j * maskVal nd ns i j - 1e10 * (1 - maskVal nd ns i j)

/-- Softmax over the last axis, `nn.Softmax(dim=-1)`. -/
noncomputable def softmaxLast {n : ℕ} (z : Fin n → ℝ) : Fin n → ℝ :=
  fun j => Real.exp (z j) / ∑ m, Real.exp (z m)

/-- Post-softmax attention weights of `Attention._attn`: scores, optional
scaling, causal masking, then softmax over key positions. -/
noncomputable def attnProbs {B H nd ns hd : ℕ} (scale : Bool)
    (q : Fin B → Fin H → Fin nd → Fin hd → ℝ)
    (k : Fin B → Fin H → Fin hd → Fin ns → ℝ) :
    Fin B → Fin H → Fin nd → Fin ns → ℝ :=
  fun b h i => softmaxLast (fun j => maskedScores (attnScaled scale hd (attnScores q k)) b h i j)

/-- Model of `Attention._attn`: `torch.matmul(w, v)` with `w` the
post-softmax attention weights. -/
noncomputable def attnCore {B H nd ns hd : ℕ} (scale : Bool)
    (q : Fin B → Fin H → Fin nd → Fin hd → ℝ)
    (k : Fin B → Fin H → Fin hd → Fin ns → ℝ)
    (v : Fin B → Fin H → Fin ns → Fin hd → ℝ) :
    Fin B → Fin H → Fin nd → Fin hd → ℝ :=
  fun b h i d => ∑ j, attnProbs scale q k b h i j * v b h j d

/-- Learned parameters of `Attention`: the fused `c_attn : F → 3F`
projection, the output projection `c_proj : F → F`, and the `scale` flag. -/
structure AttnParams (F : ℕ) where
  cattnW : Fin F → Fin (3 * F) → ℝ
  cattnB : Fin (3 * F) → ℝ
  cprojW : Fin F → Fin F → ℝ
  cprojB : Fin F → ℝ
  scale : Bool

/-- A layer's past cache as stored in `present` / `layer_past`: both the
key and the value components have sequence-major orientation
`(B, H, P, hd)` — they are stacked, so they must have the same shape. -/
structure PastKV (B H hd P : ℕ) where
  key : Fin B → Fin H → Fin P → Fin hd → ℝ
  val : Fin B → Fin H → Fin P → Fin hd → ℝ

/-- Output of `self.c_attn(x)` inside `Attention.forward`. -/
noncomputable def cAttnOut {B T H hd : ℕ} (p : AttnParams (H * hd))
    (x : Tens B T (H * hd)) : Tens B T (3 * (H * hd)) :=
  conv1d p.cattnW p.cattnB x

/-- `query = self.split_heads(query)` — orientation `(B, H, T, hd)`. -/
noncomputable def queryMat {B T H hd : ℕ} (p : AttnParams (H * hd))
    (x : Tens B T (H * hd)) : Fin B → Fin H → Fin T → Fin hd → ℝ :=
  fun b h t d => cAttnOut p x b t (qIdx (hIdx h d))

/-- `key = self.split_heads(key, k=True)` — orientation `(B, H, hd, T)`. -/
noncomputable def keyMatNew {B T H hd : ℕ} (p : AttnParams (H * hd))
    (x : Tens B T (H * hd)) : Fin B → Fin H → Fin hd → Fin T → ℝ :=
  fun b h d t => cAttnOut p x b t (kIdx (hIdx h d))

/-- `value = self.split_heads(value)` — orientation `(B, H, T, hd)`. -/
noncomputable def valMatNew {B T H hd : ℕ} (p : AttnParams (H * hd))
    (x : Tens B T (H * hd)) : Fin B → Fin H → Fin T → Fin hd → ℝ :=
  fun b h t d => cAttnOut p x b t (vIdx (hIdx h d))

/-- The key matrix used by the attention computation when a past cache is
present: `past_key = layer_past[0].transpose(-2, -1)` followed by
`torch.cat((past_key, key), dim=-1)`. -/
noncomputable def keyMat {B T H hd P : ℕ} (p : AttnParams (H * hd))
    (x : Tens B T (H * hd)) (past : PastKV B H hd P) :
    Fin B → Fin H → Fin hd → Fin (P + T) → ℝ :=
  fun b h d => catFin (fun s => past.key b h s d) (fun t => keyMatNew p x b h d t)

/-- The value matrix used by the attention computation when a past cache
is present: `torch.cat((past_value, value), dim=-2)`. -/
noncomputable def valMat {B T H hd P : ℕ} (p : AttnParams (H * hd))
    (x : Tens B T (H * hd)) (past : PastKV B H hd P) :
    Fin B → Fin H → Fin (P + T) → Fin hd → ℝ :=
  fun b h => catFin (fun s => past.val b h s) (fun t => valMatNew p x b h t)

/-- `merge_heads`: `permute(0, 2, 1, 3)` followed by merging the last two
axes back into the feature axis. -/
noncomputable def mergeHeads {B T H hd : ℕ}
    (a : Fin B → Fin H → Fin T → Fin hd → ℝ) : Tens B T (H * hd) :=
  fun b t f => a b (headOf f) t (dimOf f)

/-- Model of `Attention.forward` with a past cache of prefix length `P`
(the `layer_past is not None` branch). Returns the attention output and
the `present = torch.stack((key.transpose(-2, -1), value))` cache. -/
noncomputable def attnFwd {B T H hd P : ℕ} (p : AttnParams (H * hd))
    (x : Tens B T (H * hd)) (past : PastKV B H hd P) :
    Tens B T (H * hd) × PastKV B H hd (P + T) :=
  let a := attnCore p.scale (queryMat p x) (keyMat p x past) (valMat p x past)
  (conv1d p.cprojW p.cprojB (mergeHeads a),
   ⟨fun b h s d => keyMat p x past b h d s, valMat p x past⟩)

/-- Model of `Attention.forward` without a past cache (the
`layer_past is None` branch): no concatenation happens. -/
noncomputable def attnFwdNone {B T H hd : ℕ} (p : AttnParams (H * hd))
    (x : Tens B T (H * hd)) : Tens B T (H * hd) × PastKV B H hd T :=
  let a := attnCore p.scale (queryMat p x) (keyMatNew p x) (valMatNew p x)
  (conv1d p.cprojW p.cprojB (mergeHeads a),
   ⟨fun b h s d => keyMatNew p x b h d s, valMatNew p x⟩)

/-- A layer's internal state as threaded by `GPT2._forward`: either `None`
or a cache of some prefix length. -/
def CacheT (B H hd : ℕ) := Σ P : ℕ, PastKV B H hd P

/-- `Attention.forward` dispatching on whether `layer_past` is `None`. -/
noncomputable def attnFwdO {B T H hd : ℕ} (p : AttnParams (H * hd))
    (x : Tens B T (H * hd)) (past : Option (CacheT B H hd)) :
    Tens B T (H * hd) × CacheT B H hd :=
  match past with
  | none => let r := attnFwdNone p x; (r.1, ⟨T, r.2⟩)
  | some c => let r := attnFwd p x c.2; (r.1, ⟨c.1 + T, r.2⟩)

/-! ### Block and stack -/

/-- Learned parameters of one decoder `Block`: `ln_1`, `attn`, `ln_2`,
`mlp`, all built with feature length `F = H * hd` and a shared `eps`. -/
structure BlockParams (H hd : ℕ) where
  ln1W : Fin (H * hd) → ℝ
  ln1B : Fin (H * hd) → ℝ
  attn : AttnParams (H * hd)
  ln2W : Fin (H * hd) → ℝ
  ln2B : Fin (H * hd) → ℝ
  mlp : MLPParams (H * hd)
  eps : ℝ

/-- Model of `Block.forward`:
`a, present = self.attn(self.ln_1(x), layer_past)`, `x = x + a`,
`m = self.mlp(self.ln_2(x))`, `x = x + m`, `return x, present`. -/
noncomputable def blockFwd {B T H hd : ℕ} (bp : BlockParams H hd)
    (x : Tens B T (H * hd)) (past : Option (CacheT B H hd)) :
    Tens B T (H * hd) × CacheT B H hd :=
  let ap := attnFwdO bp.attn (layerNorm bp.ln1W bp.ln1B bp.eps x) past
  let x1 := x + ap.1
  let m := mlpFwd bp.mlp (layerNorm bp.ln2W bp.ln2B bp.eps x1)
  (x1 + m, ap.2)

/-- The first `n` iterations of the loop in `GPT2._forward`: thread `x`
through blocks `0, …, n-1` and append each block's new internal state to
the accumulator list. -/
noncomputable def gpt2Steps {B T H hd : ℕ} (blocks : ℕ → BlockParams H hd)
    (x : Tens B T (H * hd)) (ints : ℕ → Option (CacheT B H hd)) :
    ℕ → Tens B T (H * hd) × List (CacheT B H hd)
  | 0 => (x, [])
  | n + 1 =>
    let prev := gpt2Steps blocks x ints n
    let r := blockFwd (blocks n) prev.1 (ints n)
    (r.1, prev.2 ++ [r.2])

/-- Model of `GPT2._forward`: run the `nb_layer` blocks in index order,
collect the new internal states as `dict(enumerate(new_internals))`
(modelled as positional lookup in the accumulated list), and apply the
final `ln_f` to the last block's output. -/
noncomputable def gpt2Fwd {B T H hd : ℕ} (N : ℕ) (blocks : ℕ → BlockParams H hd)
    (lnfW lnfB : Fin (H * hd) → ℝ) (eps : ℝ) (x : Tens B T (H * hd))
    (ints : ℕ → Option (CacheT B H hd)) :
    Tens B T (H * hd) × (ℕ → Option (CacheT B H hd)) :=
  let s := gpt2Steps blocks x ints N
  (layerNorm lnfW lnfB eps s.1, fun i => s.2.get? i)

/-- Specification-side threading: the input of block `n`, i.e. `x` after
blocks `0, …, n-1` have been applied in order, each consuming its own
cache entry. -/
noncomputable def chainX {B T H hd : ℕ} (blocks : ℕ → BlockParams H hd)
    (x : Tens B T (H * hd)) (ints : ℕ → Option (CacheT B H hd)) :
    ℕ → Tens B T (H * hd)
  | 0 => x
  | n + 1 => (blockFwd (blocks n) (chainX blocks x ints n) (ints n)).1

/-! ### Construction-time checks and weight initialization -/

/-- Python's `%` on naturals: raises `ZeroDivisionError` when the divisor
is zero, hence `Option`. -/
def pymod (a b : ℕ) : Option ℕ :=
  if b = 0 then none else some (a % b)

/-- The deterministic construction data of `Attention.__init__`. -/
structure AttnCfg where
  nHead : ℕ
  splitSize : ℕ
  seqLen : ℕ
  scale : Bool

/-- Model of `Attention.__init__`: evaluating
`assert feat_len % nb_head == 0` raises on a zero head count (Python
`ZeroDivisionError`) or on a failed assertion; otherwise construction
succeeds, recording `n_head`, `split_size`, the mask size and `scale`. -/
def attnInit (featLen seqLen nbHead : ℕ) (scale : Bool) : Option AttnCfg :=
  match pymod featLen nbHead with
  | none => none
  | some r => if r = 0 then some ⟨nbHead, featLen, seqLen, scale⟩ else none

/-- The module classes appearing in the tree walked by
`GPT2.apply(self._init_weights)`. -/
inductive ModKind
  | linear
  | embedding
  | conv1dMod
  | layerNormMod

/-- The `isinstance(module, (nn.Linear, nn.Embedding))` test of
`GPT2._init_weights`. -/
def isLinearOrEmbedding : ModKind → Bool
  | .linear => true
  | .embedding => true
  | _ => false

/-- The `isinstance(module, LayerNorm)` test of `GPT2._init_weights`. -/
def isLayerNormMod : ModKind → Bool
  | .layerNormMod => true
  | _ => false

/-- Effect of `GPT2._init_weights` on a weight matrix of a module of the
given kind: `nn.Linear` and `nn.Embedding` weights are re-drawn from the
`fresh` stream (`normal_(mean=0.0, std=0.02)`); everything else keeps its
weight. -/
def initWeightsMatrix {nx nf : ℕ} (kind : ModKind) (fresh : ℕ → ℝ)
    (W : Fin nx → Fin nf → ℝ) : Fin nx → Fin nf → ℝ :=
  if isLinearOrEmbedding kind then (fun k j => fresh (k.1 * nf + j.1)) else W

/-- Effect of `GPT2._init_weights` on a normalization scale vector:
`module.weight.data.fill_(1.0)` for `LayerNorm` modules, kept otherwise. -/
def initWeightsLNScale {n : ℕ} (kind : ModKind) (v : Fin n → ℝ) : Fin n → ℝ :=
  if isLayerNormMod kind then (fun _ => 1) else v

/-- Effect of `GPT2._init_weights` on a normalization shift vector:
`module.bias.data.zero_()` for `LayerNorm` modules, kept otherwise. -/
def initWeightsLNShift {n : ℕ} (kind : ModKind) (v : Fin n → ℝ) : Fin n → ℝ :=
  if isLayerNormMod kind then (fun _ => 0) else v

/-- Parameters of one freshly constructed `Block`, with the `Conv1D`
weights drawn in construction order from the stream `g`
(`nn.init.normal_(w, std=0.02)` in `Conv1D.__init__`), `Conv1D` biases
zero, and `LayerNorm` parameters ones/zeros. `F = H * hd`. -/
noncomputable def blockInit (H hd : ℕ) (eps : ℝ) (g : ℕ → ℝ) : BlockParams H hd :=
  { ln1W := fun _ => 1
    ln1B := fun _ => 0
    attn :=
      { cattnW := fun k j => g (k.1 * (3 * (H * hd)) + j.1)
        cattnB := fun _ => 0
        cprojW := fun k j => g ((H * hd) * (3 * (H * hd)) + k.1 * (H * hd) + j.1)
        cprojB := fun _ => 0
        scale := true }
    ln2W := fun _ => 1
    ln2B := fun _ => 0
    mlp :=
      { cfcW := fun k j =>
          g ((H * hd) * (3 * (H * hd)) + (H * hd) * (H * hd) + k.1 * (4 * (H * hd)) + j.1)
        cfcB := fun _ => 0
        cprojW := fun k j =>
          g ((H * hd) * (3 * (H * hd)) + (H * hd) * (H * hd) + (H * hd) * (4 * (H * hd))
            + k.1 * (H * hd) + j.1)
        cprojB := fun _ => 0 }
    eps := eps }

/-- Application of `GPT2._init_weights` to every submodule of one block,
dispatching on the module's class exactly as the `isinstance` chain does:
the affine projections are `Conv1D` (neither `nn.Linear` nor
`nn.Embedding`), the normalizations are `LayerNorm`. -/
def initWeightsBlock {H hd : ℕ} (fresh : ℕ → ℝ) (bp : BlockParams H hd) :
    BlockParams H hd :=
  { ln1W := initWeightsLNScale .layerNormMod bp.ln1W
    ln1B := initWeightsLNShift .layerNormMod bp.ln1B
    attn :=
      { cattnW := initWeightsMatrix .conv1dMod fresh bp.attn.cattnW
        cattnB := bp.attn.cattnB
        cprojW := initWeightsMatrix .conv1dMod fresh bp.attn.cprojW
        cprojB := bp.attn.cprojB
        scale := bp.attn.scale }
    ln2W := initWeightsLNScale .layerNormMod bp.ln2W
    ln2B := initWeightsLNShift .layerNormMod bp.ln2B
    mlp :=
      { cfcW := initWeightsMatrix .conv1dMod fresh bp.mlp.cfcW
        cfcB := bp.mlp.cfcB
        cprojW := initWeightsMatrix .conv1dMod fresh bp.mlp.cprojW
        cprojB := bp.mlp.cprojB }
    eps := bp.eps }

/-- Model of `GPT2.__init__`: construct one block, replicate it by
`copy.deepcopy` into `nb_layer` value-identical entries, build `ln_f`,
then run `self.apply(self._init_weights)` over every submodule. Returns
the per-layer block parameters and the `ln_f` scale/shift. -/
noncomputable def gpt2Init (H hd N : ℕ) (eps : ℝ) (g fresh : ℕ → ℝ) :
    (ℕ → BlockParams H hd) × ((Fin (H * hd) → ℝ) × (Fin (H * hd) → ℝ)) :=
  let block := blockInit H hd eps g
  (fun _ => initWeightsBlock fresh block,
   (initWeightsLNScale .layerNormMod (fun _ => 1),
    initWeightsLNShift .layerNormMod (fun _ => 0)))

/-! ### Concrete fixtures used by witnesses and counterexamples -/

/-- Attention parameters for the causality counterexample: the fused
projection reads off the input as the value (`c_attn` weight column 2),
queries and keys are zero, `c_proj` is the identity, `scale` off. -/
noncomputable def cexAttnP : AttnParams (1 * 1) :=
  ⟨fun _ j => if (j : ℕ) = 2 then 1 else 0, fun _ => 0, fun _ _ => 1, fun _ => 0, false⟩

/-- Input tensor `(1, 2, 1)` that is zero everywhere. -/
noncomputable def cexX0 : Tens 1 2 (1 * 1) := fun _ _ _ => 0

/-- Input tensor `(1, 2, 1)` that differs from `cexX0` only at sequence
position 1 (strictly after position 0). -/
noncomputable def cexX1 : Tens 1 2 (1 * 1) := fun _ t _ => if (t : ℕ) = 1 then 1 else 0

/-- All-zero attention parameters over a single 1-dimensional head. -/
noncomputable def zeroAttnP : AttnParams (1 * 1) :=
  ⟨fun _ _ => 0, fun _ => 0, fun _ _ => 0, fun _ => 0, false⟩

/-- All-zero MLP parameters over feature length 1. -/
noncomputable def zeroMLPP : MLPParams (1 * 1) :=
  ⟨fun _ _ => 0, fun _ => 0, fun _ _ => 0, fun _ => 0⟩

/-- A one-entry past cache with key value 3 and value 4 everywhere. -/
noncomputable def onePast : PastKV 1 1 1 1 :=
  ⟨fun _ _ _ _ => 3, fun _ _ _ _ => 4⟩

/-- An all-zero `(1, 1, 1)` input tensor. -/
noncomputable def zeroX11 : Tens 1 1 (1 * 1) := fun _ _ _ => 0

/-- A concrete decoder block over one 1-dimensional head. -/
noncomputable def cexBlock : BlockParams 1 1 :=
  ⟨fun _ => 1, fun _ => 0, zeroAttnP, fun _ => 1, fun _ => 0, zeroMLPP, 1e-5⟩

/-! ## Claims -/

/-- Claim C2: `Block.forward` implements the pre-normalization residual
topology: it returns `(out, present)` with `x' = x + attn(ln_1 x)` and
`out = x' + mlp(ln_2 x')` — normalization precedes each sub-layer and the
raw, un-normalized input feeds each residual add. -/
theorem claim2_theorem {B T H hd : ℕ} (bp : BlockParams H hd) (x : Tens B T (H * hd))
    (past : Option (CacheT B H hd)) :
    blockFwd bp x past
      = (x + (attnFwdO bp.attn (layerNorm bp.ln1W bp.ln1B bp.eps x) past).1
          + mlpFwd bp.mlp (layerNorm bp.ln2W bp.ln2B bp.eps
              (x + (attnFwdO bp.attn (layerNorm bp.ln1W bp.ln1B bp.eps x) past).1)),
         (attnFwdO bp.attn (layerNorm bp.ln1W bp.ln1B bp.eps x) past).2) := rfl

/-- Claim C3: the sliced mask `b` consists of rows `ns-nd … ns-1` and
columns `0 … ns-1` of the fixed lower-triangular buffer, the masked
scores equal `score·b - 1e10·(1-b)` (a large finite negative bias, not
literal negative infinity), and the attention weights are the softmax of
exactly these masked scores. Hypotheses `nd ≤ ns ≤ S` are the in-range
regime of the slice (the out-of-range regime is claim C8). -/
theorem claim3_theorem (S : ℕ) {B H nd ns hd : ℕ} (h1 : nd ≤ ns) (h2 : ns ≤ S)
    (w : Fin B → Fin H → Fin nd → Fin ns → ℝ) (sc : Bool)
    (q : Fin B → Fin H → Fin nd → Fin hd → ℝ)
    (k : Fin B → Fin H → Fin hd → Fin ns → ℝ)
    (b : Fin B) (h : Fin H) (i : Fin nd) (j : Fin ns) :
    maskedScores w b h i j
      = w b h i j * biasBuf S ⟨ns - nd + i.1, by have := i.2; omega⟩ ⟨j.1, by have := j.2; omega⟩
        - 1e10 * (1 - biasBuf S ⟨ns - nd + i.1, by have := i.2; omega⟩ ⟨j.1, by have := j.2; omega⟩)
    ∧ attnProbs sc q k b h i j
      = softmaxLast (fun m => maskedScores (attnScaled sc hd (attnScores q k)) b h i m) j := by
  constructor
  · simp [maskedScores, maskVal, biasBuf]
  · rfl

/-- Witness for claim C3 at `S = 3`, `nd = 2`, `ns = 3`, constant score 5,
query row 1 and key column 2. -/
theorem claim3_witness :
    (2 : ℕ) ≤ 3 ∧ (3 : ℕ) ≤ 3
    ∧ (maskedScores (fun _ _ _ _ => (5 : ℝ) :
          Fin 1 → Fin 1 → Fin 2 → Fin 3 → ℝ) 0 0 ⟨1, by norm_num⟩ ⟨2, by norm_num⟩
        = 5 * biasBuf 3 (⟨2, by norm_num⟩ : Fin 3) (⟨2, by norm_num⟩ : Fin 3)
          - 1e10 * (1 - biasBuf 3 (⟨2, by norm_num⟩ : Fin 3) (⟨2, by norm_num⟩ : Fin 3))
      ∧ attnProbs false (fun _ _ _ _ => (0 : ℝ) : Fin 1 → Fin 1 → Fin 2 → Fin 1 → ℝ)
          (fun _ _ _ _ => (0 : ℝ) : Fin 1 → Fin 1 → Fin 1 → Fin 3 → ℝ) 0 0
          (⟨1, by norm_num⟩ : Fin 2) (⟨2, by norm_num⟩ : Fin 3)
        = softmaxLast (fun m => maskedScores
            (attnScaled false 1 (attnScores
              (fun _ _ _ _ => (0 : ℝ) : Fin 1 → Fin 1 → Fin 2 → Fin 1 → ℝ)
              (fun _ _ _ _ => (0 : ℝ) : Fin 1 → Fin 1 → Fin 1 → Fin 3 → ℝ))) 0 0
            (⟨1, by norm_num⟩ : Fin 2) m) (⟨2, by norm_num⟩ : Fin 3)) :=
  ⟨by norm_num, by norm_num,
    claim3_theorem 3 (by norm_num) (by norm_num) _ false _ _ 0 0 ⟨1, by norm_num⟩ ⟨2, by norm_num⟩⟩

/-- Claim C6 counterexample: the epsilon default of the `LayerNorm`
constructor is `1e-12`, not `1e-5` as claimed. -/
theorem claim6_counterexample :
    layerNormDefaultEps = 1e-12 ∧ layerNormDefaultEps ≠ (1e-5 : ℝ) := by
  refine ⟨rfl, ?_⟩
  norm_num [layerNormDefaultEps]

/-- Claim C6 (amended): `LayerNorm` subtracts the mean over the last axis,
divides by the square root of the biased variance over the last axis plus
epsilon, then applies the learned elementwise scale and shift; epsilon is
fixed at construction, with constructor default `1e-12`, while `1e-5` is
the stack-level `layer_norm_eps` default that `GPT2` passes to every
normalization it builds. -/
theorem claim6_theorem {B T n : ℕ} (w bias : Fin n → ℝ) (eps : ℝ) (x : Tens B T n)
    (b : Fin B) (t : Fin T) (j : Fin n) :
    layerNorm w bias eps x b t j
      = w j * ((x b t j - meanLast x b t) / Real.sqrt (varLast x b t + eps)) + bias j
    ∧ layerNormDefaultEps = 1e-12 ∧ gpt2ArgsLayerNormEps = 1e-5 :=
  ⟨rfl, rfl, rfl⟩

/-- Claim C7 counterexample: with `F = 0` and `H = 0` the divisibility
`H ∣ F` holds, yet construction fails (`feat_len % nb_head` raises
`ZeroDivisionError` before the assert can pass). -/
theorem claim7_counterexample : (0 : ℕ) ∣ 0 ∧ attnInit 0 1024 0 true = none :=
  ⟨dvd_rfl, rfl⟩

/-- Claim C7 (amended): construction of the attention module succeeds
exactly when the head count is nonzero and divides the feature count; in
every other case evaluating `assert feat_len % nb_head == 0` raises at
construction time, so no divisibility failure is deferred to `forward`. -/
theorem claim7_theorem (F S H : ℕ) (sc : Bool) :
    attnInit F S H sc = if H ≠ 0 ∧ H ∣ F then some ⟨H, F, S, sc⟩ else none := by
  by_cases hH : H = 0
  · subst hH
    simp [attnInit, pymod]
  · have hpos : 0 < H := Nat.pos_of_ne_zero hH
    by_cases hdvd : H ∣ F
    · have hmod : F % H = 0 := Nat.mod_eq_zero_of_dvd hdvd
      simp [attnInit, pymod, hH, hmod, hdvd]
    · have hmod : F % H ≠ 0 := fun hc => hdvd (Nat.dvd_of_mod_eq_zero hc)
      simp [attnInit, pymod, hH, hmod, hdvd]

/-- Claim C9: the feed-forward network as constructed by `Block` projects
`F` features to exactly `4F` (the types of `MLPParams` record this),
applies the gelu nonlinearity `0.5·x·(1 + tanh(√(2/π)·(x + 0.044715·x³)))`
elementwise, and projects back to `F`; it is a pure function of its
input and parameters. -/
theorem claim9_theorem {B T F : ℕ} (p : MLPParams F) (x : Tens B T F)
    (b : Fin B) (t : Fin T) (f : Fin F) (r : ℝ) :
    mlpFwd p x b t f
      = conv1d p.cprojW p.cprojB (fun b2 t2 j => gelu (conv1d p.cfcW p.cfcB x b2 t2 j)) b t f
    ∧ gelu r = 0.5 * r * (1 + Real.tanh (Real.sqrt (2 / Real.pi) * (r + 0.044715 * r ^ 3))) :=
  ⟨rfl, rfl⟩

/-- Claim C10: immediately after `GPT2.__init__`, all decoder blocks hold
element-wise identical parameters (they are value copies of one
constructed block), and the affine-projection (`Conv1D`) weights and
biases still carry the originally drawn values: `_init_weights`
re-randomizes only `nn.Linear`/`nn.Embedding` modules, and `Conv1D` is
neither. -/
theorem claim10_theorem (H hd N : ℕ) (eps : ℝ) (g fresh : ℕ → ℝ) (i j : ℕ) :
    (gpt2Init H hd N eps g fresh).1 i = (gpt2Init H hd N eps g fresh).1 j
    ∧ ((gpt2Init H hd N eps g fresh).1 i).attn.cattnW = (blockInit H hd eps g).attn.cattnW
    ∧ ((gpt2Init H hd N eps g fresh).1 i).attn.cattnB = (blockInit H hd eps g).attn.cattnB
    ∧ ((gpt2Init H hd N eps g fresh).1 i).attn.cprojW = (blockInit H hd eps g).attn.cprojW
    ∧ ((gpt2Init H hd N eps g fresh).1 i).mlp.cfcW = (blockInit H hd eps g).mlp.cfcW
    ∧ ((gpt2Init H hd N eps g fresh).1 i).mlp.cprojW = (blockInit H hd eps g).mlp.cprojW
    ∧ isLinearOrEmbedding ModKind.conv1dMod = false :=
  ⟨rfl, rfl, rfl, rfl, rfl, rfl, rfl⟩

/-- Helper: the left branch of a cache concatenation. -/
theorem catFin_left {α : Type} {P T : ℕ} (a : Fin P → α) (bb : Fin T → α)
    (j : Fin (P + T)) (hj : j.1 < P) : catFin a bb j = a ⟨j.1, hj⟩ := by
  unfold catFin
  rw [dif_pos hj]

/-- Helper: broadcasting any dimension against a singleton keeps it. -/
theorem broadcastDim_one (a : ℕ) : broadcastDim a 1 = some a := by
  unfold broadcastDim
  split_ifs with h1 h2 <;> first | rfl | omega

/-- Claim C4 counterexample: at `B = 1, T = 2, F = 2, H = 1, P = 1` (so
`F/H = 2` and `P + T = 3`) the returned `present` is
`(2, B, H, P+T, F/H) = [2, 1, 1, 3, 2]`: its key component has the
sequence-major shape `[1, 1, 3, 2]`, not the claimed Key-cache
orientation `[1, 1, 2, 3]` — which could not even be stacked with the
value component. -/
theorem claim4_counterexample :
    attnPresentShape 1 2 2 1 1 = some (2 :: [1, 1, 3, 2])
    ∧ ([1, 1, 3, 2] : List ℕ) ≠ [1, 1, 2, 3]
    ∧ stackShape [1, 1, 2, 3] [1, 1, 3, 2] = none := by decide

/-- Claim C4 (amended): the returned cache stacks the new Key transposed
into the same sequence-major orientation `(B, H, P+T, F/H)` as the new
Value (they must share a shape to be stacked); entry-wise the stored key
is the transpose of the concatenated Key matrix and the stored value is
the concatenated Value matrix, and feeding the cache as `past` on the
next call reproduces the concatenated prefix exactly. -/
theorem claim4_theorem {B T T2 H hd P : ℕ} (hH : 0 < H)
    (p p2 : AttnParams (H * hd)) (x : Tens B T (H * hd)) (x2 : Tens B T2 (H * hd))
    (past : PastKV B H hd P) (b : Fin B) (h : Fin H) (d : Fin hd)
    (s : Fin (P + T)) :
    attnPresentShape B T (H * hd) H P = some [2, B, H, P + T, hd]
    ∧ (attnFwd p x past).2.key b h s d = keyMat p x past b h d s
    ∧ (attnFwd p x past).2.val b h s d = valMat p x past b h s d
    ∧ keyMat p2 x2 (attnFwd p x past).2 b h d ⟨s.1, by have := s.2; omega⟩
        = keyMat p x past b h d s
    ∧ valMat p2 x2 (attnFwd p x past).2 b h ⟨s.1, by have := s.2; omega⟩ d
        = valMat p x past b h s d := by
  have hdiv : H * hd / H = hd := Nat.mul_div_cancel_left hd hH
  refine ⟨?_, rfl, rfl, ?_, ?_⟩
  · simp [attnPresentShape, viewSplitLast, permute0231, permute0213, transposeLast2,
      catLastShape, catPenShape, stackShape, hdiv]
  · exact @catFin_left _ (P + T) T2 (fun u => (attnFwd p x past).2.key b h u d)
      (fun t => keyMatNew p2 x2 b h d t) ⟨s.1, by have := s.2; omega⟩ s.2
  · exact congrFun (@catFin_left _ (P + T) T2 (fun u => (attnFwd p x past).2.val b h u)
      (fun t => valMatNew p2 x2 b h t) ⟨s.1, by have := s.2; omega⟩ s.2) d

/-- Witness for claim C4 at `B = T = T2 = H = hd = P = 1` with zero
parameters and the concrete one-entry past cache `onePast`. -/
theorem claim4_witness :
    (0 : ℕ) < 1
    ∧ (attnPresentShape 1 1 (1 * 1) 1 1 = some [2, 1, 1, 1 + 1, 1]
      ∧ (attnFwd zeroAttnP zeroX11 onePast).2.key 0 0 ⟨0, by norm_num⟩ 0
          = keyMat zeroAttnP zeroX11 onePast 0 0 0 ⟨0, by norm_num⟩
      ∧ (attnFwd zeroAttnP zeroX11 onePast).2.val 0 0 ⟨0, by norm_num⟩ 0
          = valMat zeroAttnP zeroX11 onePast 0 0 ⟨0, by norm_num⟩ 0
      ∧ keyMat zeroAttnP zeroX11 (attnFwd zeroAttnP zeroX11 onePast).2 0 0 0 ⟨0, by norm_num⟩
          = keyMat zeroAttnP zeroX11 onePast 0 0 0 ⟨0, by norm_num⟩
      ∧ valMat zeroAttnP zeroX11 (attnFwd zeroAttnP zeroX11 onePast).2 0 0 ⟨0, by norm_num⟩ 0
          = valMat zeroAttnP zeroX11 onePast 0 0 ⟨0, by norm_num⟩ 0) :=
  ⟨by norm_num,
    claim4_theorem (by norm_num) zeroAttnP zeroAttnP zeroX11 zeroX11 onePast 0 0 0
      ⟨0, by norm_num⟩⟩

/-- Claim C8 counterexample: with maximum sequence length `S = 1` and a
call of query length `nd = 2`, total key length `ns = 2 > S`, the sliced
mask clamps to the all-ones `1 × 1` matrix, which broadcasts against the
`(1, 1, 2, 2)` score tensor — so the call does not fail at all, although
the total sequence length exceeds `S`. -/
theorem claim8_counterexample :
    (1 : ℕ) < 2 ∧ attnMaskMulShape 1 1 2 2 1 = some [1, 1, 2, 2] := by decide

/-- Claim C8 (amended): Python slicing of the fixed mask clamps silently
instead of raising an out-of-bounds error; when the total key length `ns`
exceeds the configured maximum `S` (for `S ≥ 2`), the forward call fails
with a shape-mismatch (broadcast) error at the elementwise multiplication
of the scores with the clamped mask slice — while in the degenerate
`S = 1`, no-past case the clamped mask broadcasts and the call succeeds
without masking. -/
theorem claim8_theorem (B H nd ns S : ℕ) (h1 : nd ≤ ns) (h2 : 2 ≤ S) (h3 : S < ns) :
    attnMaskMulShape B H nd ns S = none := by
  have hcol : sliceLen S 0 ns = S := by
    unfold sliceLen
    omega
  have hlast : broadcastDim ns S = none := by
    unfold broadcastDim
    rw [if_neg (by omega), if_neg (by omega), if_neg (by omega)]
  have hlast2 : broadcastDim ns (sliceLen S 0 ns) = none := by
    rw [hcol]
    exact hlast
  have hrest2 : broadcastShape [nd, ns] [sliceLen S (ns - nd) ns, sliceLen S 0 ns] = none := by
    cases hbd : broadcastDim nd (sliceLen S (ns - nd) ns) <;>
      simp [broadcastShape, hbd, hlast2]
  unfold attnMaskMulShape maskSliceShape
  simp [broadcastShape, broadcastDim_one, hrest2, hlast2]

/-- Witness for claim C8 at `B = H = 1`, `nd = ns = 3`, `S = 2`. -/
theorem claim8_witness :
    (3 : ℕ) ≤ 3 ∧ (2 : ℕ) ≤ 2 ∧ (2 : ℕ) < 3 ∧ attnMaskMulShape 1 1 3 3 2 = none :=
  ⟨by norm_num, by norm_num, by norm_num,
    claim8_theorem 1 1 3 3 2 (by norm_num) (by norm_num) (by norm_num)⟩

/-- Helper: the threaded tensor of the `GPT2._forward` loop after `n`
iterations is the `n`-fold block chain. -/
theorem gpt2Steps_fst {B T H hd : ℕ} (blocks : ℕ → BlockParams H hd)
    (x : Tens B T (H * hd)) (ints : ℕ → Option (CacheT B H hd)) (n : ℕ) :
    (gpt2Steps blocks x ints n).1 = chainX blocks x ints n := by
  induction n with
  | zero => rfl
  | succ n ih => simp [gpt2Steps, chainX, ih]

/-- Helper: the loop accumulates exactly one cache entry per block. -/
theorem gpt2Steps_len {B T H hd : ℕ} (blocks : ℕ → BlockParams H hd)
    (x : Tens B T (H * hd)) (ints : ℕ → Option (CacheT B H hd)) (n : ℕ) :
    (gpt2Steps blocks x ints n).2.length = n := by
  induction n with
  | zero => rfl
  | succ n ih => simp [gpt2Steps, ih]

/-- Helper: entry `i` of the accumulated cache list is block `i`'s new
internal state, computed on the chained input and block `i`'s own cache. -/
theorem gpt2Steps_get {B T H hd : ℕ} (blocks : ℕ → BlockParams H hd)
    (x : Tens B T (H * hd)) (ints : ℕ → Option (CacheT B H hd)) (n i : ℕ)
    (hi : i < n) :
    (gpt2Steps blocks x ints n).2.get? i
      = some (blockFwd (blocks i) (chainX blocks x ints i) (ints i)).2 := by
  induction n with
  | zero => omega
  | succ n ih =>
    have hlen : (gpt2Steps blocks x ints n).2.length = n := gpt2Steps_len blocks x ints n
    show ((gpt2Steps blocks x ints n).2
        ++ [(blockFwd (blocks n) (gpt2Steps blocks x ints n).1 (ints n)).2]).get? i = _
    rcases Nat.lt_or_ge i n with hlt | hge
    · rw [List.get?_append (by omega)]
      exact ih hlt
    · have hin : i = n := by omega
      subst hin
      rw [List.get?_append_right (by omega)]
      rw [gpt2Steps_fst blocks x ints i]
      simp [hlen]

/-- Claim C5: `GPT2._forward` runs the `N` blocks in index order, feeding
block `i`'s output to block `i+1` and letting block `i` consume cache
entry `i`; it collects each block's updated cache keyed by its layer
index (one entry per block), and returns the final normalization applied
to block `N-1`'s output together with that mapping. -/
theorem claim5_theorem {B T H hd : ℕ} (N : ℕ) (blocks : ℕ → BlockParams H hd)
    (lnfW lnfB : Fin (H * hd) → ℝ) (eps : ℝ) (x : Tens B T (H * hd))
    (ints : ℕ → Option (CacheT B H hd)) (i : ℕ) (hi : i < N) :
    (gpt2Fwd N blocks lnfW lnfB eps x ints).1
      = layerNorm lnfW lnfB eps (chainX blocks x ints N)
    ∧ (gpt2Fwd N blocks lnfW lnfB eps x ints).2 i
        = some (blockFwd (blocks i) (chainX blocks x ints i) (ints i)).2
    ∧ (gpt2Steps blocks x ints N).2.length = N := by
  refine ⟨?_, ?_, gpt2Steps_len blocks x ints N⟩
  · show layerNorm lnfW lnfB eps (gpt2Steps blocks x ints N).1 = _
    rw [gpt2Steps_fst]
  · show (gpt2Steps blocks x ints N).2.get? i = _
    exact gpt2Steps_get blocks x ints N i hi

/-- Witness for claim C5: a one-block stack on a zero input with empty
internal state. -/
theorem claim5_witness :
    (0 : ℕ) < 1
    ∧ ((gpt2Fwd 1 (fun _ => cexBlock) (fun _ => 1) (fun _ => 0) 1e-5 zeroX11
          (fun _ => none)).1
        = layerNorm (fun _ => 1) (fun _ => 0) 1e-5
            (chainX (fun _ => cexBlock) zeroX11 (fun _ => none) 1)
      ∧ (gpt2Fwd 1 (fun _ => cexBlock) (fun _ => 1) (fun _ => 0) 1e-5 zeroX11
            (fun _ => none)).2 0
          = some (blockFwd cexBlock (chainX (fun _ => cexBlock) zeroX11 (fun _ => none) 0)
              none).2
      ∧ (gpt2Steps (fun _ => cexBlock) zeroX11 (fun _ => none) 1).2.length = 1) :=
  ⟨by norm_num,
    claim5_theorem 1 (fun _ => cexBlock) (fun _ => 1) (fun _ => 0) 1e-5 zeroX11
      (fun _ => none) 0 (by norm_num)⟩

/-- Helper: `conv1d` acts row-wise — its output at leading index `(b, t)`
depends only on the input row `(b, t)`. -/
theorem conv1d_row_eq {B T nx nf : ℕ} (W : Fin nx → Fin nf → ℝ) (bias : Fin nf → ℝ)
    (x x2 : Tens B T nx) (b : Fin B) (t : Fin T)
    (hxt : ∀ k, x b t k = x2 b t k) (j : Fin nf) :
    conv1d W bias x b t j = conv1d W bias x2 b t j := by
  unfold conv1d
  congr 1
  exact Finset.sum_congr rfl fun k _ => by rw [hxt k]

/-- Claim C1 (amended): if `x` and `x2` agree at all sequence positions
`≤ t`, then with no past cache the masked attention scores and the
post-softmax attention weights at query position `t` are identical across
the two runs, for every key position. (The attention *output* at `t` is
not exactly identical in exact real arithmetic: masked positions carry
the exponentially small softmax weight of the finite `-1e10` bias rather
than weight zero — see the counterexample.) -/
theorem claim1_theorem {B T H hd : ℕ} (p : AttnParams (H * hd))
    (x x2 : Tens B T (H * hd)) (t : Fin T)
    (hagree : ∀ (b : Fin B) (u : Fin T) (f : Fin (H * hd)),
      (u : ℕ) ≤ (t : ℕ) → x b u f = x2 b u f)
    (b : Fin B) (h : Fin H) (j : Fin T) :
    maskedScores (attnScaled p.scale hd (attnScores (queryMat p x) (keyMatNew p x))) b h t j
      = maskedScores (attnScaled p.scale hd
          (attnScores (queryMat p x2) (keyMatNew p x2))) b h t j
    ∧ attnProbs p.scale (queryMat p x) (keyMatNew p x) b h t j
      = attnProbs p.scale (queryMat p x2) (keyMatNew p x2) b h t j := by
  have hsub : T - T = 0 := Nat.sub_self T
  have hrow : ∀ m : Fin T,
      maskedScores (attnScaled p.scale hd (attnScores (queryMat p x) (keyMatNew p x))) b h t m
        = maskedScores (attnScaled p.scale hd
            (attnScores (queryMat p x2) (keyMatNew p x2))) b h t m := by
    intro m
    unfold maskedScores maskVal
    rw [hsub, Nat.zero_add]
    by_cases hm : (m : ℕ) ≤ (t : ℕ)
    · have hsc : attnScores (queryMat p x) (keyMatNew p x) b h t m
          = attnScores (queryMat p x2) (keyMatNew p x2) b h t m := by
        unfold attnScores
        refine Finset.sum_congr rfl fun dd _ => ?_
        have hq : queryMat p x b h t dd = queryMat p x2 b h t dd :=
          conv1d_row_eq p.cattnW p.cattnB x x2 b t
            (fun k => hagree b t k le_rfl) (qIdx (hIdx h dd))
        have hk : keyMatNew p x b h dd m = keyMatNew p x2 b h dd m :=
          conv1d_row_eq p.cattnW p.cattnB x x2 b m
            (fun k => hagree b m k hm) (kIdx (hIdx h dd))
        rw [hq, hk]
      have hscl : attnScaled p.scale hd (attnScores (queryMat p x) (keyMatNew p x)) b h t m
          = attnScaled p.scale hd (attnScores (queryMat p x2) (keyMatNew p x2)) b h t m := by
        unfold attnScaled
        cases hb : p.scale <;> simp [hsc]
      rw [if_pos hm, hscl]
    · rw [if_neg hm]
      ring
  refine ⟨hrow j, ?_⟩
  have hden : (∑ m, Real.exp (maskedScores (attnScaled p.scale hd
        (attnScores (queryMat p x) (keyMatNew p x))) b h t m))
      = ∑ m, Real.exp (maskedScores (attnScaled p.scale hd
        (attnScores (queryMat p x2) (keyMatNew p x2))) b h t m) :=
    Finset.sum_congr rfl fun m _ => by rw [hrow m]
  simp only [attnProbs, softmaxLast]
  rw [hrow j, hden]

/-- Helper: a sum over the one-element index type `Fin (1 * 1)`. -/
theorem sum_fin_one_one {M : Type} [AddCommMonoid M] (f : Fin (1 * 1) → M) :
    ∑ k, f k = f ⟨0, Nat.one_pos⟩ := Fin.sum_univ_one f

/-- Helper: evaluation of `c_attn` on the all-zero input. -/
theorem cex_cattn0 (b : Fin 1) (t : Fin 2) (j : Fin (3 * (1 * 1))) :
    cAttnOut cexAttnP cexX0 b t j = 0 := by
  simp [cAttnOut, conv1d, cexAttnP, cexX0]

/-- Helper: evaluation of `c_attn` on the perturbed input `cexX1`. -/
theorem cex_cattn1 (b : Fin 1) (t : Fin 2) (j : Fin (3 * (1 * 1))) :
    cAttnOut cexAttnP cexX1 b t j
      = (if (t : ℕ) = 1 then (1 : ℝ) else 0) * (if (j : ℕ) = 2 then (1 : ℝ) else 0) := by
  simp only [cAttnOut, conv1d, cexAttnP, cexX1, sum_fin_one_one]
  simp

/-- Helper: every element of `Fin 1` is zero. -/
theorem fin_one_zero (a : Fin 1) : a = 0 := Subsingleton.elim a 0

/-- Helper: the query rows of both runs are zero. -/
theorem cex_query0 (b h : Fin 1) (t : Fin 2) (d : Fin 1) :
    queryMat cexAttnP cexX0 b h t d = 0 := cex_cattn0 b t (qIdx (hIdx h d))

/-- Helper: key rows of the zero run are zero. -/
theorem cex_key0 (b h : Fin 1) (t : Fin 2) (d : Fin 1) :
    keyMatNew cexAttnP cexX0 b h d t = 0 := cex_cattn0 b t (kIdx (hIdx h d))

/-- Helper: value rows of the zero run are zero. -/
theorem cex_valNew0 (b h : Fin 1) (t : Fin 2) (d : Fin 1) :
    valMatNew cexAttnP cexX0 b h t d = 0 := cex_cattn0 b t (vIdx (hIdx h d))

/-- Helper: the query rows of the perturbed run are zero. -/
theorem cex_query1 (b h : Fin 1) (t : Fin 2) (d : Fin 1) :
    queryMat cexAttnP cexX1 b h t d = 0 := by
  show cAttnOut cexAttnP cexX1 b t (qIdx (hIdx h d)) = 0
  rw [cex_cattn1]
  rw [show ((qIdx (hIdx h d) : Fin (3 * (1 * 1))) : ℕ) = 0 from by
    rw [fin_one_zero h, fin_one_zero d]
    decide]
  norm_num

/-- Helper: the key rows of the perturbed run are zero. -/
theorem cex_key1 (b h : Fin 1) (t : Fin 2) (d : Fin 1) :
    keyMatNew cexAttnP cexX1 b h d t = 0 := by
  show cAttnOut cexAttnP cexX1 b t (kIdx (hIdx h d)) = 0
  rw [cex_cattn1]
  rw [show ((kIdx (hIdx h d) : Fin (3 * (1 * 1))) : ℕ) = 1 from by
    rw [fin_one_zero h, fin_one_zero d]
    decide]
  norm_num

/-- Helper: the value rows of the perturbed run read off the input. -/
theorem cex_val1 (b h : Fin 1) (t : Fin 2) (d : Fin 1) :
    valMatNew cexAttnP cexX1 b h t d = if (t : ℕ) = 1 then (1 : ℝ) else 0 := by
  show cAttnOut cexAttnP cexX1 b t (vIdx (hIdx h d)) = _
  rw [cex_cattn1]
  rw [show ((vIdx (hIdx h d) : Fin (3 * (1 * 1))) : ℕ) = 2 from by
    rw [fin_one_zero h, fin_one_zero d]
    decide]
  simp

/-- Helper: attention scores of the zero run vanish. -/
theorem cex_scores0 (b h : Fin 1) (i m : Fin 2) :
    attnScores (queryMat cexAttnP cexX0) (keyMatNew cexAttnP cexX0) b h i m = 0 := by
  unfold attnScores
  rw [Fin.sum_univ_one, cex_query0, zero_mul]

/-- Helper: attention scores of the perturbed run vanish. -/
theorem cex_scores1 (b h : Fin 1) (i m : Fin 2) :
    attnScores (queryMat cexAttnP cexX1) (keyMatNew cexAttnP cexX1) b h i m = 0 := by
  unfold attnScores
  rw [Fin.sum_univ_one, cex_query1, zero_mul]

/-- Helper: masked score of query row 0 at the visible key position 0. -/
theorem cex_maskedAt0 (W : Fin 1 → Fin 1 → Fin 2 → Fin 2 → ℝ) (b h : Fin 1)
    (hW0 : W b h 0 0 = 0) :
    maskedScores (attnScaled false 1 W) b h 0 0 = 0 := by
  unfold maskedScores maskVal attnScaled
  simp [hW0]

/-- Helper: masked score of query row 0 at the future key position 1 is
the finite bias `-1e10`, independent of the input. -/
theorem cex_maskedAt1 (W : Fin 1 → Fin 1 → Fin 2 → Fin 2 → ℝ) (b h : Fin 1) :
    maskedScores (attnScaled false 1 W) b h 0 1 = -1e10 := by
  unfold maskedScores maskVal attnScaled
  simp

/-- Helper: softmax denominator of query row 0. -/
theorem cex_den (W : Fin 1 → Fin 1 → Fin 2 → Fin 2 → ℝ) (b h : Fin 1)
    (hW0 : W b h 0 0 = 0) :
    (∑ m : Fin 2, Real.exp (maskedScores (attnScaled false 1 W) b h 0 m))
      = Real.exp 0 + Real.exp (-1e10) := by
  rw [Fin.sum_univ_two, cex_maskedAt0 W b h hW0, cex_maskedAt1 W b h]

/-- Helper: softmax weight that query position 0 assigns to the future
key position 1: exponentially small but, over the reals, not zero. -/
theorem cex_probsAt1 (W : Fin 1 → Fin 1 → Fin 2 → Fin 2 → ℝ) (b h : Fin 1)
    (hW0 : W b h 0 0 = 0) :
    softmaxLast (fun m => maskedScores (attnScaled false 1 W) b h 0 m) 1
      = Real.exp (-1e10) / (Real.exp 0 + Real.exp (-1e10)) := by
  show Real.exp (maskedScores (attnScaled false 1 W) b h 0 1)
      / (∑ m : Fin 2, Real.exp (maskedScores (attnScaled false 1 W) b h 0 m))
    = Real.exp (-1e10) / (Real.exp 0 + Real.exp (-1e10))
  rw [cex_maskedAt1 W b h, cex_den W b h hW0]

/-- Helper: attention head output of the zero run at query position 0. -/
theorem cex_core0 (b h : Fin 1) (d : Fin 1) :
    attnCore cexAttnP.scale (queryMat cexAttnP cexX0) (keyMatNew cexAttnP cexX0)
      (valMatNew cexAttnP cexX0) b h 0 d = 0 := by
  unfold attnCore
  rw [Fin.sum_univ_two, cex_valNew0 b h 0 d, cex_valNew0 b h 1 d]
  ring

/-- Helper: attention head output of the perturbed run at query
position 0 picks up the future value with the mask-bias softmax weight. -/
theorem cex_core1 (b h : Fin 1) (d : Fin 1) :
    attnCore cexAttnP.scale (queryMat cexAttnP cexX1) (keyMatNew cexAttnP cexX1)
      (valMatNew cexAttnP cexX1) b h 0 d
      = Real.exp (-1e10) / (Real.exp 0 + Real.exp (-1e10)) := by
  unfold attnCore
  rw [Fin.sum_univ_two, cex_val1 b h 0 d, cex_val1 b h 1 d]
  have hp : attnProbs cexAttnP.scale (queryMat cexAttnP cexX1) (keyMatNew cexAttnP cexX1)
      b h 0 1 = Real.exp (-1e10) / (Real.exp 0 + Real.exp (-1e10)) :=
    cex_probsAt1 (attnScores (queryMat cexAttnP cexX1) (keyMatNew cexAttnP cexX1)) b h
      (cex_scores1 b h 0 0)
  rw [hp]
  norm_num

/-- Helper: the full attention output of the zero run at position 0. -/
theorem cex_out0 : (attnFwdO cexAttnP cexX0 none).1 0 0 0 = 0 := by
  show conv1d cexAttnP.cprojW cexAttnP.cprojB
    (mergeHeads (attnCore cexAttnP.scale (queryMat cexAttnP cexX0)
      (keyMatNew cexAttnP cexX0) (valMatNew cexAttnP cexX0))) 0 0 0 = 0
  simp only [conv1d, mergeHeads, sum_fin_one_one, cex_core0]
  simp [cexAttnP]

/-- Helper: the full attention output of the perturbed run at position 0
is strictly between 0 and 1 in exact real arithmetic. -/
theorem cex_out1 : (attnFwdO cexAttnP cexX1 none).1 0 0 0
    = Real.exp (-1e10) / (Real.exp 0 + Real.exp (-1e10)) := by
  show conv1d cexAttnP.cprojW cexAttnP.cprojB
    (mergeHeads (attnCore cexAttnP.scale (queryMat cexAttnP cexX1)
      (keyMatNew cexAttnP cexX1) (valMatNew cexAttnP cexX1))) 0 0 0
    = Real.exp (-1e10) / (Real.exp 0 + Real.exp (-1e10))
  simp only [conv1d, mergeHeads, sum_fin_one_one, cex_core1]
  simp [cexAttnP]

/-- Claim C1 counterexample: in exact real arithmetic the two runs on
inputs agreeing at positions `≤ 0` produce different attention outputs at
position 0, because the finite `-1e10` mask bias leaves the future
position a softmax weight of `exp(-1e10) > 0` (only floating-point
underflow makes it zero). -/
theorem claim1_counterexample :
    (∀ (b : Fin 1) (u : Fin 2) (f : Fin (1 * 1)),
        (u : ℕ) ≤ ((0 : Fin 2) : ℕ) → cexX0 b u f = cexX1 b u f)
    ∧ (attnFwdO cexAttnP cexX0 none).1 0 0 0 ≠ (attnFwdO cexAttnP cexX1 none).1 0 0 0 := by
  constructor
  · intro b u f hu
    have hu0 : (u : ℕ) = 0 := by simpa using hu
    simp [cexX0, cexX1, hu0]
  · rw [cex_out0, cex_out1]
    have h1 : 0 < Real.exp (-1e10) := Real.exp_pos _
    have h2 : 0 < Real.exp 0 + Real.exp (-1e10) := by positivity
    exact (div_pos h1 h2).ne

/-- Witness for claim C1 (amended) on the concrete perturbation pair
`cexX0`, `cexX1` at position `t = 0`, key position `j = 1`. -/
theorem claim1_witness :
    (∀ (b : Fin 1) (u : Fin 2) (f : Fin (1 * 1)),
        (u : ℕ) ≤ ((0 : Fin 2) : ℕ) → cexX0 b u f = cexX1 b u f)
    ∧ (maskedScores (attnScaled cexAttnP.scale 1
          (attnScores (queryMat cexAttnP cexX0) (keyMatNew cexAttnP cexX0))) 0 0 0 1
        = maskedScores (attnScaled cexAttnP.scale 1
            (attnScores (queryMat cexAttnP cexX1) (keyMatNew cexAttnP cexX1))) 0 0 0 1
      ∧ attnProbs cexAttnP.scale (queryMat cexAttnP cexX0) (keyMatNew cexAttnP cexX0) 0 0 0 1
        = attnProbs cexAttnP.scale (queryMat cexAttnP cexX1) (keyMatNew cexAttnP cexX1)
            0 0 0 1) := by
  have hag : ∀ (b : Fin 1) (u : Fin 2) (f : Fin (1 * 1)),
      (u : ℕ) ≤ ((0 : Fin 2) : ℕ) → cexX0 b u f = cexX1 b u f := by
    intro b u f hu
    have hu0 : (u : ℕ) = 0 := by simpa using hu
    simp [cexX0, cexX1, hu0]
  exact ⟨hag, claim1_theorem cexAttnP cexX0 cexX1 0 hag 0 0 1⟩
